import Mathlib

/-!
# Verification of the `alembic-autoscan` discovery engine

A shallow embedding of the discovery engine of the `alembic-autoscan`
repository (`alembic_autoscan/scanner.py`, `alembic_autoscan/cache.py`,
`alembic_autoscan/utils.py`), together with theorems settling the claims of the spec about it.

Modelling conventions:

* Python `ast` nodes are embedded as inductive types carrying exactly the
  fields the scanner inspects; every other node shape is collapsed into an
  `other` constructor that still carries its child expressions/statements,
  so that `ast.walk`-style traversal sees every nested class definition and
  call expression.
* Reading-and-parsing a source file is modelled by its outcome: either the
  parsed statement list or one of the exception classes the worker catches.
* The JSON cache store is modelled by an exact JSON value type; a JSON
  object is an association list of fields looked up at the first matching
  key (the stores this tool writes never contain duplicate keys).
* Python exceptions are modelled with `Except`; the `try` blocks catch exactly the exception classes the source names.
* File-system state during one `discover()` call is a fixed list of file
  entries (path parts relative to the base path, modification time, parsed
  source); a scan never mutates the tree, so `stat` always succeeds and
  returns the stored modification time of the entry.
* The primitive single-pattern matcher (`PurePath.match`) is a parameter of
  type `Matcher`; all pattern-layer logic built on top of it (the variant
  heuristics, include/exclude composition) is embedded from the source.
-/

/-- A JSON value, as stored in the `.alembic-autoscan.cache` file.
Objects are association lists of fields. -/
inductive Json where
  | obj (fields : List (String × Json))
  | arr (elems : List Json)
  | str (s : String)
  | num (n : Int)
  | bool (b : Bool)
  | null
deriving Repr

/-- Python exception classes distinguished by the `try` blocks of the cache layer. -/
inductive PyErr where
  | oSError
  | jsonDecodeError
  | keyError
  | valueError
  | typeError
  | attributeError
deriving Repr, DecidableEq

/-- The state of the on-disk cache store file: absent, present but failing
to open (`OSError`), present but not valid JSON (`json.JSONDecodeError`),
or present with a decoded JSON document. -/
inductive StoreFile where
  | absent
  | unreadable
  | undecodable
  | content (j : Json)
deriving Repr

/-- Python `==` between a cached JSON value and another JSON value, to the
extent the scanner exercises it: numbers and booleans compare across types
(`True == 1`), strings compare as strings, `null` equals `null`.  The
scanner only ever compares a cached value against a numeric modification
time, so container cross-equality never arises and is `false` here. -/
def pyEq : Json → Json → Bool
  | .num a, .num b => a == b
  | .num a, .bool b => a == (if b then 1 else 0)
  | .bool a, .num b => (if a then (1 : Int) else 0) == b
  | .bool a, .bool b => a == b
  | .str a, .str b => a == b
  | .null, .null => true
  | _, _ => false

/-- Python truthiness of a JSON value. -/
def jsonTruthy : Json → Bool
  | .obj fields => !fields.isEmpty
  | .arr elems => !elems.isEmpty
  | .str s => s != ""
  | .num n => n != 0
  | .bool b => b
  | .null => false

/-- Python truthiness of an `Optional[str]`. -/
def optTruthy : Option String → Bool
  | none => false
  | some s => s != ""

/-- First-match lookup in the field list of a JSON object (Python `dict`
indexing; the dicts this tool handles have unique keys). -/
def objLookup (fields : List (String × Json)) (key : String) : Option Json :=
  match fields with
  | [] => none
  | (k, v) :: rest => if k = key then some v else objLookup rest key

/-- Python `dict` assignment `d[key] = v`: replace the first binding of
`key`, or append a new binding at the end. -/
def objSet (fields : List (String × Json)) (key : String) (v : Json) :
    List (String × Json) :=
  match fields with
  | [] => [(key, v)]
  | (k, w) :: rest =>
      if k = key then (k, v) :: rest else (k, w) :: objSet rest key v


/-- Lexicographic comparison of character lists (Python string `<=`).
The byte-indexed core `String` primitives are compiled externally and are
opaque to the kernel evaluator; this file therefore works on the
underlying character lists, so every definition evaluates. -/
def charListLe : List Char → List Char → Bool
  | [], _ => true
  | _ :: _, [] => false
  | a :: as, b :: bs =>
      if a = b then charListLe as bs else decide (a.toNat < b.toNat)

/-- Lexicographic `<=` on strings. -/
def strLe (a b : String) : Bool := charListLe a.data b.data

/-- `str.startswith(pre)`. -/
def strStartsWith (s pre : String) : Bool := pre.data.isPrefixOf s.data

/-- `str.endswith(post)`. -/
def strEndsWith (s post : String) : Bool := post.data.isSuffixOf s.data

/-- Drop the first `n` characters. -/
def strDrop (s : String) (n : Nat) : String := ⟨s.data.drop n⟩

/-- Drop the last `n` characters. -/
def strDropRight (s : String) (n : Nat) : String :=
  ⟨s.data.take (s.data.length - n)⟩

/-- `c in s` for a single character. -/
def strContainsChar (s : String) (c : Char) : Bool := s.data.contains c

/-- Substring containment on character lists. -/
def listContainsSub (sep : List Char) : List Char → Bool
  | [] => sep.isEmpty
  | c :: rest => sep.isPrefixOf (c :: rest) || listContainsSub sep rest

/-- `sub in s` (Python substring containment). -/
def strContainsSubstr (s sub : String) : Bool := listContainsSub sub.data s.data

/-- Left-to-right, non-overlapping replacement of `sep` by `repl`
(Python `str.replace`); the fuel argument is the input length, consumed
at least one character per step. -/
def replaceAllFuel (sep repl : List Char) : Nat → List Char → List Char
  | 0, s => s
  | _ + 1, [] => []
  | fuel + 1, c :: rest =>
      if !sep.isEmpty && sep.isPrefixOf (c :: rest) then
        repl ++ replaceAllFuel sep repl fuel (List.drop sep.length (c :: rest))
      else c :: replaceAllFuel sep repl fuel rest

/-- `s.replace(sep, repl)`. -/
def strReplace (s sep repl : String) : String :=
  ⟨replaceAllFuel sep.data repl.data s.data.length s.data⟩

/-- `str.strip()`: remove leading and trailing whitespace. -/
def strTrim (s : String) : String :=
  ⟨((s.data.dropWhile Char.isWhitespace).reverse.dropWhile
      Char.isWhitespace).reverse⟩

/-- `sep.join(parts)`. -/
def strIntercalate (sep : String) : List String → String
  | [] => ""
  | [s] => s
  | s :: rest => s ++ sep ++ strIntercalate sep rest

/-- A Python constant literal (`ast.Constant`).  `pyTrue`/`pyFalse` are
kept distinct from integers because the scanner tests `value is True`,
which is identity with the singleton `True`. -/
inductive PyConst where
  | pyTrue
  | pyFalse
  | pyNone
  | int (n : Int)
  | str (s : String)
  | otherConst
deriving Repr

/-- The fragment of Python expressions the scanner inspects
(`ast.Name`, `ast.Attribute`, `ast.Call`, `ast.Constant`,
`ast.Subscript`); every other expression shape is `other`, carrying its
child expressions so traversal still reaches nested calls.  The keywords of a call are `(argument name, value)` pairs (`none` models `**kwargs`). -/
inductive PyExpr where
  | name (id : String)
  | attribute (value : PyExpr) (attr : String)
  | call (func : PyExpr) (args : List PyExpr)
         (keywords : List (Option String × PyExpr))
  | constant (value : PyConst)
  | subscript (value : PyExpr) (slice : PyExpr)
  | other (children : List PyExpr)
deriving Repr

/-- The fragment of Python statements the scanner inspects (`ast.Assign`,
`ast.AnnAssign`, `ast.ClassDef`); every other statement shape is `other`,
carrying its child expressions and child statements so traversal still
reaches classes and calls nested in function bodies, `if` blocks, etc. -/
inductive PyStmt where
  | assign (targets : List PyExpr) (value : PyExpr)
  | annAssign (target : PyExpr) (ann : PyExpr) (value : Option PyExpr)
  | classDef (name : String) (bases : List PyExpr)
             (keywords : List (Option String × PyExpr))
             (decoratorList : List PyExpr) (body : List PyStmt)
  | other (exprs : List PyExpr) (body : List PyStmt)
deriving Repr

/-- The fields of one `ast.ClassDef` node, as consumed by the per-class
helper functions of `scanner.py`. -/
structure ClassInfo where
  name : String
  bases : List PyExpr
  keywords : List (Option String × PyExpr)
  decoratorList : List PyExpr
  body : List PyStmt
deriving Repr

/-- `keyword.value is True` after an `isinstance(keyword.value,
ast.Constant)` check. -/
def isConstTrue : PyExpr → Bool
  | .constant .pyTrue => true
  | _ => false

/-- One keyword of the form `table=True`. -/
def isTableTrueKeyword (kw : Option String × PyExpr) : Bool :=
  kw.1 == some "table" && isConstTrue kw.2

/-- A base expression `SQLModel(..., table=True)` (scanner.py, the
`ast.Call` branch of `_is_sqlmodel`). -/
def isSQLModelCallTableTrue (base : PyExpr) : Bool :=
  match base with
  | .call (.name "SQLModel") _ kws => kws.any isTableTrueKeyword
  | _ => false

/-- A base expression that is the plain name `SQLModel`. -/
def isSQLModelName (base : PyExpr) : Bool :=
  match base with
  | .name "SQLModel" => true
  | _ => false

/-- `_is_sqlmodel` (scanner.py:24): the class inherits from
`SQLModel(..., table=True)`, or inherits from `SQLModel` and carries a
`table=True` keyword in the class definition itself. -/
def _is_sqlmodel (c : ClassInfo) : Bool :=
  if c.bases.isEmpty then false
  else
    c.bases.any isSQLModelCallTableTrue ||
      (c.bases.any isSQLModelName && c.keywords.any isTableTrueKeyword)

/-- One body item assigning the literal `True` to `__abstract__`. -/
def isAbstractAssign (item : PyStmt) : Bool :=
  match item with
  | .assign targets value =>
      targets.any (fun t =>
        match t with
        | .name "__abstract__" => true
        | _ => false) && isConstTrue value
  | _ => false

/-- `_is_abstract_class` (scanner.py:56). -/
def _is_abstract_class (c : ClassInfo) : Bool :=
  c.body.any isAbstractAssign

/-- `_is_column_call` (scanner.py:69): a call to `Column` or
`mapped_column`, as a plain name or an attribute access. -/
def _is_column_call : PyExpr → Bool
  | .call (.name f) _ _ => f == "Column" || f == "mapped_column"
  | .call (.attribute _ a) _ _ => a == "Column" || a == "mapped_column"
  | _ => false

/-- A decorator recognized by `_is_sqlalchemy_model`: `as_declarative` or
`declarative_base`, by name or by call (plain or attribute). -/
def isDeclarativeDecorator (d : PyExpr) : Bool :=
  match d with
  | .name id => id == "as_declarative" || id == "declarative_base"
  | .call (.name f) _ _ => f == "as_declarative" || f == "declarative_base"
  | .call (.attribute _ a) _ _ => a == "as_declarative" || a == "declarative_base"
  | _ => false

/-- A base expression recognized by the base loop of `_is_sqlalchemy_model`:
a name `Base`/`DeclarativeBase`/`Model` or ending in `Base`, an attribute
access whose attribute is `Model`/`DeclarativeBase` or ends in `Base`, or
a call to `declarative_base`. -/
def isModelBase (base : PyExpr) : Bool :=
  match base with
  | .name id =>
      id == "Base" || id == "DeclarativeBase" || id == "Model" ||
        strEndsWith id "Base"
  | .attribute _ a =>
      a == "Model" || a == "DeclarativeBase" || strEndsWith a "Base"
  | .call (.name f) _ _ => f == "declarative_base"
  | _ => false

/-- `_is_sqlalchemy_model` (scanner.py:83). -/
def _is_sqlalchemy_model (c : ClassInfo) : Bool :=
  _is_sqlmodel c ||
    c.decoratorList.any isDeclarativeDecorator ||
    (!c.bases.isEmpty && c.bases.any isModelBase)

/-- One body item giving direct table evidence
(the loop body of `_has_table_definition`): a `__tablename__`/`__table__`
assignment, a `Mapped[...]`-annotated field, an annotated field assigned a
column-constructor call, or a plain field assigned a column-constructor
call. -/
def isTableItem (item : PyStmt) : Bool :=
  match item with
  | .assign targets value =>
      targets.any (fun t =>
        match t with
        | .name id => id == "__tablename__" || id == "__table__"
        | _ => false) || _is_column_call value
  | .annAssign _ ann value =>
      (match ann with
       | .subscript (.name "Mapped") _ => true
       | _ => false) ||
        (match value with
         | some v => _is_column_call v
         | none => false)
  | _ => false

/-- `_has_table_definition` (scanner.py:126). -/
def _has_table_definition (c : ClassInfo) : Bool :=
  _is_sqlmodel c || c.body.any isTableItem

/-- `_has_tablename` (scanner.py:159): any assignment to `__tablename__`
in the class body. -/
def _has_tablename (c : ClassInfo) : Bool :=
  c.body.any (fun item =>
    match item with
    | .assign targets _ =>
        targets.any (fun t =>
          match t with
          | .name "__tablename__" => true
          | _ => false)
    | _ => false)

/-- The function position of an imperative-mapping call
(the `ast.Call` check of `scan_file_worker`): `map_imperatively` as an
attribute access or a plain name. -/
def isMapImperativelyFunc : PyExpr → Bool
  | .attribute _ a => a == "map_imperatively"
  | .name id => id == "map_imperatively"
  | _ => false

mutual

/-- Whether an expression, or any node nested inside it, is a call whose
function is `map_imperatively` (the `ast.Call` arm of `ast.walk` in
`scan_file_worker`). -/
def exprHasMapCall : PyExpr → Bool
  | .name _ => false
  | .constant _ => false
  | .attribute v _ => exprHasMapCall v
  | .subscript v s => exprHasMapCall v || exprHasMapCall s
  | .call f args kws =>
      isMapImperativelyFunc f || exprHasMapCall f ||
        exprsHaveMapCall args || kwsHaveMapCall kws
  | .other children => exprsHaveMapCall children

def exprsHaveMapCall : List PyExpr → Bool
  | [] => false
  | e :: rest => exprHasMapCall e || exprsHaveMapCall rest

def kwsHaveMapCall : List (Option String × PyExpr) → Bool
  | [] => false
  | kw :: rest => exprHasMapCall kw.2 || kwsHaveMapCall rest

end

mutual

/-- Whether a statement contains a `map_imperatively` call anywhere. -/
def stmtHasMapCall : PyStmt → Bool
  | .assign targets value => exprsHaveMapCall targets || exprHasMapCall value
  | .annAssign t ann v =>
      exprHasMapCall t || exprHasMapCall ann ||
        (match v with
         | some e => exprHasMapCall e
         | none => false)
  | .classDef _ bases kws decs body =>
      exprsHaveMapCall bases || kwsHaveMapCall kws ||
        exprsHaveMapCall decs || stmtsHaveMapCall body
  | .other exprs body => exprsHaveMapCall exprs || stmtsHaveMapCall body

def stmtsHaveMapCall : List PyStmt → Bool
  | [] => false
  | s :: rest => stmtHasMapCall s || stmtsHaveMapCall rest

end

mutual

/-- All `ast.ClassDef` nodes reachable from a statement.  `ast.walk`
enumerates nodes breadth-first; only the set of visited nodes matters to
the boolean results of the scanner and to class-name membership, so a depth-first
collection is used here. -/
def stmtClasses : PyStmt → List ClassInfo
  | .assign _ _ => []
  | .annAssign _ _ _ => []
  | .classDef n bases kws decs body =>
      ⟨n, bases, kws, decs, body⟩ :: stmtsClasses body
  | .other _ body => stmtsClasses body

def stmtsClasses : List PyStmt → List ClassInfo
  | [] => []
  | s :: rest => stmtClasses s ++ stmtsClasses rest

end

/-- The per-class-node body of the loop of `scan_file_worker`: a class makes
the file a model unless the abstract check diverts it, and otherwise when
it has a `__tablename__`, or is a SQLModel table, or passes both
model-base detection and the table-evidence check. -/
def classContributes (c : ClassInfo) : Bool :=
  !_is_abstract_class c &&
    (_has_tablename c || _is_sqlmodel c ||
      (_is_sqlalchemy_model c && _has_table_definition c))

/-- The exception classes `scan_file_worker` recovers from: the named
tuple `(SyntaxError, UnicodeDecodeError, OSError)` plus the catch-all
`except Exception`. -/
inductive ScanError where
  | syntaxError
  | unicodeDecodeError
  | oSError
  | otherException
deriving Repr

/-- `scan_file_worker` (scanner.py:169) on the outcome of reading and
parsing one file: on any caught failure the file is reported as
`(file_path, False, [])`; otherwise every walked class is checked
(abstract classes are recorded by name and skipped), and any
`map_imperatively` call also marks the file. -/
def scan_file_worker (file_path : String)
    (src : Except ScanError (List PyStmt)) :
    String × Bool × List String :=
  match src with
  | .error _ => (file_path, false, [])
  | .ok body =>
      let classes := stmtsClasses body
      let abstracts :=
        (classes.filter (fun c => _is_abstract_class c)).map ClassInfo.name
      let hasConcrete := classes.any classContributes || stmtsHaveMapCall body
      (file_path, hasConcrete, abstracts)

/-- The glob patterns one `.gitignore` line contributes
(the loop body of `parse_gitignore`, utils.py:26): blank lines, comments and
negated entries yield nothing; a trailing slash appends `**`; a leading
slash anchors at the root; a plain name without a separator expands to a
directory form and a leaf form (or a single `**/`-prefixed form when it
already holds a wildcard); a path with a separator is `**/`-prefixed
unless it already starts with a wildcard. -/
def gitignoreLinePatterns (rawLine : String) : List String :=
  let line := strTrim rawLine
  if line == "" || strStartsWith line "#" then []
  else if strStartsWith line "!" then []
  else
    let p := if strEndsWith line "/" then line ++ "**" else line
    if strStartsWith p "/" then [strDrop p 1]
    else if !strContainsChar p '/' then
      if strContainsChar p '*' then ["**/" ++ p]
      else ["**/" ++ p ++ "/**", "**/" ++ p]
    else if !strStartsWith p "**/" && !strStartsWith p "*" then ["**/" ++ p]
    else [p]

/-- `parse_gitignore` (utils.py:9) on the lines of the ignore file; `none`
models an absent file (and a mid-read `OSError`, which returns the lines
collected so far, is covered by quantifying over the line list). -/
def parse_gitignore : Option (List String) → List String
  | none => []
  | some lines => lines.flatMap gitignoreLinePatterns

/-- `ModelScanner.DEFAULT_EXCLUDE_PATTERNS` (scanner.py:229). -/
def DEFAULT_EXCLUDE_PATTERNS : List String :=
  ["**/venv/**", "**/env/**", "**/.venv/**", "**/my_venv/**",
   "**/site-packages/**", "**/tests/**", "**/test/**", "**/migrations/**",
   "**/alembic/**", "**/__pycache__/**", "**/.git/**", "**/.idea/**",
   "**/.vscode/**", "**/node_modules/**", "**/build/**", "**/dist/**"]

/-- The effective exclude-pattern list built by `ModelScanner.__init__`
(scanner.py:272 and 283-287): user excludes, then the fixed defaults, then
the patterns parsed from a `.gitignore` at the scan root (extending with
an empty pattern list is the identity, so the `if gitignore_patterns:`
guard is immaterial). -/
def scannerExcludePatterns (userExcludes : List String)
    (gitignoreLines : Option (List String)) : List String :=
  userExcludes ++ DEFAULT_EXCLUDE_PATTERNS ++ parse_gitignore gitignoreLines

/-- The primitive single-pattern matcher, `PurePath.match`, applied to a
path given by its components relative to the base path (`rglob` only
yields paths under the base, so `relative_to` always succeeds). -/
def Matcher : Type := List String → String → Bool

/-- One pattern tried with the variant heuristics of `_matches_pattern`
(scanner.py:299-323): the pattern as written; with a leading `**/`
stripped; for `**/dir/**` forms, when `dir` is among the components of the path, the stripped form and the stripped form with `/*` appended;
with every `/**/` collapsed to `/`; and for `/**`-suffixed patterns, the
pattern with `/*` appended. -/
def variantMatch (m : Matcher) (parts : List String) (pattern : String) :
    Bool :=
  m parts pattern ||
    (strStartsWith pattern "**/" && m parts (strDrop pattern 3)) ||
    (strStartsWith pattern "**/" && strEndsWith pattern "/**" &&
      parts.contains (strDropRight (strDrop pattern 3) 3) &&
      (m parts (strDrop pattern 3) || m parts (strDrop pattern 3 ++ "/*"))) ||
    (strContainsSubstr pattern "/**/" &&
      m parts (strReplace pattern "/**/" "/")) ||
    (strEndsWith pattern "/**" && m parts (pattern ++ "/*"))

/-- `ModelScanner._matches_pattern` (scanner.py:289): whether any pattern
of the list matches, each tried with its variants. -/
def _matches_pattern (m : Matcher) (parts : List String)
    (patterns : List String) : Bool :=
  patterns.any (fun p => variantMatch m parts p)

/-- `ModelScanner._should_scan_file` (scanner.py:327). -/
def _should_scan_file (m : Matcher) (includePatterns excludePatterns : List String)
    (parts : List String) : Bool :=
  _matches_pattern m parts includePatterns &&
    !_matches_pattern m parts excludePatterns

/-- `Path.with_suffix("")` on a path component whose suffix is `.py`
(`rel_path.suffix == ".py"` in `_get_module_path`; only the `.py` suffix
is stripped, matching the guard in the source). -/
def stripPySuffix (s : String) : String :=
  if strEndsWith s ".py" && s != ".py" then strDropRight s 3 else s

/-- `ModelScanner._get_module_path` (scanner.py:335) on the path components of a file relative to the base path: strip the `.py` suffix from the last
component, drop a trailing `__init__`, and join the remainder with dots;
an empty remainder (the entry file of the base package itself) yields no module
identifier. -/
def _get_module_path (relParts : List String) : Option String :=
  match relParts with
  | [] => none
  | _ =>
      let stripped := relParts.dropLast ++ [stripPySuffix relParts.getLast!]
      let parts :=
        if stripped.getLast! == "__init__" then stripped.dropLast else stripped
      if parts.isEmpty then none
      else some (strIntercalate "." parts)

/-- Insertion into a `≤`-sorted list of strings. -/
def insertStr (s : String) : List String → List String
  | [] => [s]
  | t :: ts => if strLe s t then s :: t :: ts else t :: insertStr s ts

/-- Python `sorted` on a list of strings. -/
def sortStrings : List String → List String
  | [] => []
  | s :: ss => insertStr s (sortStrings ss)

/-- `ScanCache._generate_cache_key` (cache.py:37) joins the base path and
the comma-joined sorted pattern lists with colons and hashes the result
with SHA-256.  The digest is a fixed deterministic function of this key
string, and every claim depends only on determinism and identity of the
key across calls, so the digest is modelled by its preimage. -/
def _generate_cache_key (basePath : String)
    (includePatterns excludePatterns : List String) : String :=
  basePath ++ ":" ++ strIntercalate "," (sortStrings includePatterns) ++
    ":" ++ strIntercalate "," (sortStrings excludePatterns)

/-- One cached record as `ScanCache.load` hands it to the scanner: the
`(entry["mtime"], entry["is_model"], entry.get("module_path"))` triple.
The values are JSON values — the Python code never validates their
types. -/
def JRec : Type := Json × Json × Json

/-- Building the result dictionary of `load` from the entries under the
configuration key: an entry that is not an object makes the item lookup
raise (`TypeError` for lists/strings/numbers, `AttributeError` is folded
into the same non-object case via `.items()` on the enclosing value); an
object entry missing `mtime` or `is_model` raises `KeyError`, which
`load` catches. -/
def loadEntries : List (String × Json) →
    Except PyErr (List (String × JRec))
  | [] => .ok []
  | (fp, entry) :: rest =>
      match entry with
      | .obj fields =>
          match objLookup fields "mtime", objLookup fields "is_model" with
          | some m, some im =>
              (loadEntries rest).map
                (fun tail =>
                  (fp, (m, im, (objLookup fields "module_path").getD .null)) :: tail)
          | _, _ => .error .keyError
      | _ => .error .typeError

/-- Python `cache_key in all_caches` when `all_caches` is a JSON array:
membership by equality with the elements. -/
def arrContainsKey (elems : List Json) (key : String) : Bool :=
  elems.any (fun e => pyEq e (.str key))

/-- `ScanCache.load` (cache.py:49).  Returns `.ok none` on a cache miss
and `.error e` when an exception escapes: the `try` block catches exactly
`json.JSONDecodeError`, `KeyError` and `ValueError`, so an unreadable
store raises `OSError` and a structurally alien store raises
`TypeError`/`AttributeError`. -/
def ScanCache.load (enabled : Bool) (store : StoreFile) (cacheKey : String) :
    Except PyErr (Option (List (String × JRec))) :=
  if !enabled then .ok none
  else
    match store with
    | .absent => .ok none
    | .unreadable => .error .oSError
    | .undecodable => .ok none
    | .content j =>
        match j with
        | .obj fields =>
            match objLookup fields cacheKey with
            | none => .ok none
            | some cacheData =>
                match cacheData with
                | .obj entries =>
                    match loadEntries entries with
                    | .ok result => .ok (some result)
                    | .error .keyError => .ok none
                    | .error e => .error e
                | _ => .error .attributeError
        | .arr elems =>
            if !arrContainsKey elems cacheKey then .ok none
            else .error .typeError
        | .str s =>
            if !strContainsSubstr s cacheKey then .ok none
            else .error .typeError
        | _ => .error .typeError

/-- The JSON-serializable form `save` builds for one record
(cache.py:133-139). -/
def serializeRecord (r : JRec) : Json :=
  .obj [("mtime", r.1), ("is_model", r.2.1), ("module_path", r.2.2)]

/-- The cache entry object `save` builds for a whole record set. -/
def serializeRecords (fileData : List (String × JRec)) : Json :=
  .obj (fileData.map (fun pr => (pr.1, serializeRecord pr.2)))

/-- The outcome of the final write attempt of `save`: the write
succeeds; or the output `open` itself raises `OSError`, leaving the store
as it was; or `OSError` strikes during `json.dump`, after
`open(..., "w")` already truncated the file, leaving a store whose
content is a strict prefix of a JSON document — never itself valid JSON,
i.e. an undecodable store. -/
inductive WriteOutcome where
  | success
  | failOpen
  | failMidWrite
deriving Repr

/-- `ScanCache.save` (cache.py:102), returning the resulting store state.
The `try` block catches only `OSError`, so: an unreadable existing store
is swallowed (store left unchanged, nothing written), and a failed write
is swallowed — but a write that fails after `open` truncated the file
leaves an undecodable store behind while `save` still returns normally.
An existing store that is readable yet not valid JSON raises
`json.JSONDecodeError`, and a valid-JSON store whose top level is not an
object raises `TypeError` at the key assignment. -/
def ScanCache.save (enabled : Bool) (store : StoreFile) (cacheKey : String)
    (fileData : List (String × JRec)) (w : WriteOutcome) :
    Except PyErr StoreFile :=
  if !enabled then .ok store
  else
    match store with
    | .unreadable => .ok store
    | .undecodable => .error .jsonDecodeError
    | .content (.obj fields) =>
        match w with
        | .success =>
            .ok (.content (.obj (objSet fields cacheKey (serializeRecords fileData))))
        | .failOpen => .ok store
        | .failMidWrite => .ok .undecodable
    | .content _ => .error .typeError
    | .absent =>
        match w with
        | .success => .ok (.content (.obj [(cacheKey, serializeRecords fileData)]))
        | .failOpen => .ok store
        | .failMidWrite => .ok .undecodable

/-- `ScanCache.is_file_modified` (cache.py:161), comparing the current
modification time of a file with the cached value; the tree is static
during a scan, so `stat` succeeds. -/
def is_file_modified (currentMtime : Int) (cachedMtime : Json) : Bool :=
  !pyEq (.num currentMtime) cachedMtime

/-- One file of the scanned tree: its path components relative to the
base path (as `rglob("*.py")` yields it), its modification time, and the
outcome of reading-and-parsing it. -/
structure FileEntry where
  relParts : List String
  mtime : Int
  src : Except ScanError (List PyStmt)

/-- The key of the file in the cache dictionary (`str(file_path.resolve())`;
the constant base-path prefix is common to every key and dropped). -/
def pathStr (f : FileEntry) : String :=
  strIntercalate "/" f.relParts

/-- The scan configuration a `ModelScanner` is constructed with, after
`__init__` resolved the effective pattern lists. -/
structure ScanConfig where
  basePath : String
  includePatterns : List String
  excludePatterns : List String
  cacheEnabled : Bool

/-- The cache fingerprint of the configuration. -/
def cacheKey (cfg : ScanConfig) : String :=
  _generate_cache_key cfg.basePath cfg.includePatterns cfg.excludePatterns

/-- The result-replay branch of step 3 of `discover` for one cached record
(scanner.py:388-394): a truthy `is_model` is stored back as `True` with
the cached module path and, when that path is truthy, contributes it to
the discovered set; otherwise the record is stored back as
`(mtime, False, None)`. -/
def replayEntry (e : JRec) : JRec :=
  if jsonTruthy e.2.1 then (e.1, .bool true, e.2.2)
  else (e.1, .bool false, .null)

/-- The module identifiers a replayed record contributes. -/
def replayContrib (e : JRec) : List Json :=
  if jsonTruthy e.2.1 then
    (if jsonTruthy e.2.2 then [e.2.2] else [])
  else []

/-- The record that step 4 of `discover` stores for one freshly scanned file
(scanner.py:422-433), paired with the module identifiers it contributes:
a model file with a truthy module path is stored as
`(mtime, True, module_path)` and contributes it; otherwise the file is
stored as `(mtime, False, module_path)` — the computed module path is
stored even for non-models. -/
def freshPair (f : FileEntry) : JRec × List Json :=
  let isModel := (scan_file_worker (pathStr f) f.src).2.1
  match _get_module_path f.relParts with
  | some s =>
      if isModel && s != "" then
        ((.num f.mtime, .bool true, .str s), [.str s])
      else ((.num f.mtime, .bool false, .str s), [])
  | none => ((.num f.mtime, .bool false, .null), [])

/-- The abstract class names one freshly scanned file reports. -/
def freshAbstracts (f : FileEntry) : List String :=
  (scan_file_worker (pathStr f) f.src).2.2

/-- `path_str in cache_data` / `cache_data[path_str]` on the loaded
record dictionary. -/
def recLookup (data : List (String × JRec)) (key : String) : Option JRec :=
  match data with
  | [] => none
  | (k, v) :: rest => if k = key then some v else recLookup rest key

/-- Step 3 of `discover` (scanner.py:375-397): walk the eligible files in
order; a file whose path has a cached record with an unchanged
modification time is replayed, every other file is queued for scanning.
Returns (replayed contributions, replayed records, files to scan). -/
def discoverStep3 (cacheData : List (String × JRec)) :
    List FileEntry → List Json × List (String × JRec) × List FileEntry
  | [] => ([], [], [])
  | f :: rest =>
      let (c, nc, ts) := discoverStep3 cacheData rest
      match recLookup cacheData (pathStr f) with
      | some e =>
          if !is_file_modified f.mtime e.1 then
            (replayContrib e ++ c, (pathStr f, replayEntry e) :: nc, ts)
          else (c, nc, f :: ts)
      | none => (c, nc, f :: ts)

/-- Step 4 of `discover` on the files needing a scan: parallel dispatch
maps the same pure `scan_file_worker` over the same list (and falls back
to the sequential map on a dispatch failure), so both modes are this
sequential map.  Returns (fresh contributions, fresh records). -/
def discoverStep4 : List FileEntry → List Json × List (String × JRec)
  | [] => ([], [])
  | f :: rest =>
      let (c, nc) := discoverStep4 rest
      ((freshPair f).2 ++ c, (pathStr f, (freshPair f).1) :: nc)

/-- Steps 3 and 4 combined: all contributed module identifiers and the
full `new_cache_data` record set of one scan. -/
def discoverCore (cacheData : List (String × JRec)) (files : List FileEntry) :
    List Json × List (String × JRec) :=
  let (c3, nc3, ts) := discoverStep3 cacheData files
  let (c4, nc4) := discoverStep4 ts
  (c3 ++ c4, nc3 ++ nc4)

/-- The final `sorted(self._discovered_modules)` over the set of
discovered identifiers.  Every identifier added in a store this tool
reads or writes is a string (a set with non-string members would make
the Python `sorted` call raise on comparison); the model extracts the string
elements, deduplicates them (set semantics) and sorts them. -/
def sortedModules (contrib : List Json) : List String :=
  sortStrings (List.dedup (contrib.filterMap (fun j =>
    match j with
    | .str s => some s
    | _ => none)))

/-- `ModelScanner.discover` (scanner.py:354): filter the tree through
`_should_scan_file`, load the cache for the configuration fingerprint,
replay unchanged files and scan the rest, save the merged record set, and
return the sorted discovered module identifiers (strict mode only logs
and never alters the returned list).  `w` is the outcome of the final
cache write attempt. -/
def discover (m : Matcher) (cfg : ScanConfig) (fs : List FileEntry)
    (store : StoreFile) (w : WriteOutcome) :
    Except PyErr (List String × StoreFile) :=
  let files := fs.filter (fun f =>
    _should_scan_file m cfg.includePatterns cfg.excludePatterns f.relParts)
  match ScanCache.load cfg.cacheEnabled store (cacheKey cfg) with
  | .error e => .error e
  | .ok cacheOpt =>
      let (contrib, newCache) := discoverCore (cacheOpt.getD []) files
      match ScanCache.save cfg.cacheEnabled store (cacheKey cfg) newCache w with
      | .error e => .error e
      | .ok store1 => .ok (sortedModules contrib, store1)

theorem char_eq_of_toNat_eq {a b : Char} (h : a.toNat = b.toNat) : a = b := by
  have hv : a.val = b.val := by
    apply UInt32.ext
    exact h
  exact Char.eq_of_val_eq hv

theorem charListLe_total (a b : List Char) :
    charListLe a b = true ∨ charListLe b a = true := by
  induction a generalizing b with
  | nil => left; rfl
  | cons x as ih =>
      cases b with
      | nil => right; rfl
      | cons y bs =>
          by_cases hxy : x = y
          · subst hxy
            simp only [charListLe, if_pos rfl]
            exact ih bs
          · have hyx : y ≠ x := fun h => hxy h.symm
            simp only [charListLe, if_neg hxy, if_neg hyx]
            rcases Nat.lt_trichotomy x.toNat y.toNat with h | h | h
            · left; exact decide_eq_true h
            · exact absurd (char_eq_of_toNat_eq h) hxy
            · right; exact decide_eq_true h

theorem charListLe_trans {a b c : List Char} (h1 : charListLe a b = true)
    (h2 : charListLe b c = true) : charListLe a c = true := by
  induction a generalizing b c with
  | nil => rfl
  | cons x as ih =>
      cases b with
      | nil => exact absurd h1 (by simp [charListLe])
      | cons y bs =>
          cases c with
          | nil => exact absurd h2 (by simp [charListLe])
          | cons z cs =>
              simp only [charListLe] at h1 h2 ⊢
              by_cases hxy : x = y
              · subst hxy
                rw [if_pos rfl] at h1
                by_cases hxz : x = z
                · subst hxz
                  rw [if_pos rfl] at h2 ⊢
                  exact ih h1 h2
                · rw [if_neg hxz] at h2 ⊢
                  exact h2
              · rw [if_neg hxy] at h1
                have hlt1 : x.toNat < y.toNat := of_decide_eq_true h1
                by_cases hyz : y = z
                · subst hyz
                  rw [if_neg hxy]
                  exact decide_eq_true hlt1
                · rw [if_neg hyz] at h2
                  have hlt2 : y.toNat < z.toNat := of_decide_eq_true h2
                  have hlt3 : x.toNat < z.toNat := Nat.lt_trans hlt1 hlt2
                  have hxz : x ≠ z := by
                    intro he
                    rw [he] at hlt3
                    exact Nat.lt_irrefl _ hlt3
                  rw [if_neg hxz]
                  exact decide_eq_true hlt3

theorem charListLe_antisymm {a b : List Char} (h1 : charListLe a b = true)
    (h2 : charListLe b a = true) : a = b := by
  induction a generalizing b with
  | nil =>
      cases b with
      | nil => rfl
      | cons y bs => exact absurd h2 (by simp [charListLe])
  | cons x as ih =>
      cases b with
      | nil => exact absurd h1 (by simp [charListLe])
      | cons y bs =>
          simp only [charListLe] at h1 h2
          by_cases hxy : x = y
          · subst hxy
            rw [if_pos rfl] at h1 h2
            rw [ih h1 h2]
          · have hyx : y ≠ x := fun h => hxy h.symm
            rw [if_neg hxy] at h1
            rw [if_neg hyx] at h2
            exact absurd (Nat.lt_trans (of_decide_eq_true h1)
              (of_decide_eq_true h2)) (Nat.lt_irrefl _)

theorem strLe_total (a b : String) : strLe a b = true ∨ strLe b a = true :=
  charListLe_total a.data b.data

theorem strLe_trans {a b c : String} (h1 : strLe a b = true)
    (h2 : strLe b c = true) : strLe a c = true :=
  charListLe_trans h1 h2

theorem strLe_antisymm {a b : String} (h1 : strLe a b = true)
    (h2 : strLe b a = true) : a = b := by
  cases a with
  | mk da =>
      cases b with
      | mk db => exact congrArg String.mk (charListLe_antisymm h1 h2)

/-- The sortedness relation of `sortStrings`. -/
def strLeRel (a b : String) : Prop := strLe a b = true

instance : IsAntisymm String strLeRel :=
  ⟨fun _ _ h1 h2 => strLe_antisymm h1 h2⟩

theorem insertStr_perm (s : String) (l : List String) :
    List.Perm (insertStr s l) (s :: l) := by
  induction l with
  | nil => simp [insertStr]
  | cons t ts ih =>
      simp only [insertStr]
      split
      · exact List.Perm.refl _
      · exact (List.Perm.cons t ih).trans (List.Perm.swap s t ts)

theorem sortStrings_perm (l : List String) : List.Perm (sortStrings l) l := by
  induction l with
  | nil => simp [sortStrings]
  | cons s ss ih =>
      exact (insertStr_perm s (sortStrings ss)).trans (List.Perm.cons s ih)

theorem sorted_insertStr (s : String) (l : List String)
    (h : l.Sorted strLeRel) : (insertStr s l).Sorted strLeRel := by
  induction l with
  | nil => simp [insertStr, List.sorted_singleton]
  | cons t ts ih =>
      rw [List.sorted_cons] at h
      simp only [insertStr]
      split
      · rename_i hle
        rw [List.sorted_cons]
        refine ⟨?_, List.sorted_cons.mpr h⟩
        intro b hb
        rw [List.mem_cons] at hb
        rcases hb with hb | hb
        · exact hb ▸ hle
        · exact strLe_trans hle (h.1 b hb)
      · rename_i hns
        rw [List.sorted_cons]
        refine ⟨?_, ih h.2⟩
        intro b hb
        have hmem := (insertStr_perm s ts).mem_iff.mp hb
        rw [List.mem_cons] at hmem
        rcases hmem with hb1 | hb1
        · have hts : strLe t s = true := by
            rcases strLe_total t s with hc | hc
            · exact hc
            · exact absurd hc hns
          exact hb1 ▸ hts
        · exact h.1 b hb1

theorem sorted_sortStrings (l : List String) :
    (sortStrings l).Sorted strLeRel := by
  induction l with
  | nil => simp [sortStrings]
  | cons s ss ih => exact sorted_insertStr s (sortStrings ss) ih

theorem sortStrings_eq_of_perm {l1 l2 : List String}
    (h : List.Perm l1 l2) : sortStrings l1 = sortStrings l2 :=
  List.eq_of_perm_of_sorted
    ((sortStrings_perm l1).trans (h.trans (sortStrings_perm l2).symm))
    (sorted_sortStrings l1) (sorted_sortStrings l2)

theorem sortedModules_eq_of_perm {c1 c2 : List Json}
    (h : List.Perm c1 c2) : sortedModules c1 = sortedModules c2 := by
  unfold sortedModules
  exact sortStrings_eq_of_perm (List.Perm.dedup (h.filterMap _))

/-- Whether step 3 of `discover` sends a file to the scan queue: its path
has no cached record, or the cached modification time differs. -/
def needsRescan (cd : List (String × JRec)) (f : FileEntry) : Bool :=
  match recLookup cd (pathStr f) with
  | some e => is_file_modified f.mtime e.1
  | none => true

/-- The record one `discover` run stores for a file, given the loaded
cache: the replayed record when the file is served from cache, the fresh
record otherwise. -/
def runEntry (cd : List (String × JRec)) (f : FileEntry) : JRec :=
  match recLookup cd (pathStr f) with
  | some e =>
      if is_file_modified f.mtime e.1 then (freshPair f).1 else replayEntry e
  | none => (freshPair f).1

/-- The module identifiers one `discover` run collects for a file. -/
def runContrib (cd : List (String × JRec)) (f : FileEntry) : List Json :=
  match recLookup cd (pathStr f) with
  | some e =>
      if is_file_modified f.mtime e.1 then (freshPair f).2 else replayContrib e
  | none => (freshPair f).2

theorem freshPair_fst_mtime (f : FileEntry) :
    (freshPair f).1.1 = .num f.mtime := by
  unfold freshPair
  cases _get_module_path f.relParts with
  | none => rfl
  | some s =>
      simp only []
      split <;> rfl

theorem pyEq_num_refl (n : Int) : pyEq (.num n) (.num n) = true := by
  simp [pyEq]

theorem is_file_modified_freshPair (f : FileEntry) :
    is_file_modified f.mtime (freshPair f).1.1 = false := by
  rw [freshPair_fst_mtime]
  simp [is_file_modified, pyEq_num_refl]

theorem runEntry_not_modified (cd : List (String × JRec)) (f : FileEntry) :
    is_file_modified f.mtime (runEntry cd f).1 = false := by
  unfold runEntry
  cases h : recLookup cd (pathStr f) with
  | none => exact is_file_modified_freshPair f
  | some e =>
      cases hm : is_file_modified f.mtime e.1 with
      | true =>
          simp only [hm, if_pos rfl]
          exact is_file_modified_freshPair f
      | false =>
          simp [hm]
          unfold replayEntry
          split <;> simpa using hm

theorem replayContrib_replayEntry (e : JRec) :
    replayContrib (replayEntry e) = replayContrib e := by
  unfold replayContrib replayEntry
  cases ht : jsonTruthy e.2.1 <;>
    simp [ht, jsonTruthy]

theorem replayContrib_freshPair (f : FileEntry) :
    replayContrib (freshPair f).1 = (freshPair f).2 := by
  unfold freshPair
  cases h : _get_module_path f.relParts with
  | none => simp [replayContrib, jsonTruthy]
  | some s =>
      simp only []
      cases him : (scan_file_worker (pathStr f) f.src).2.1 && (s != "") with
      | true =>
          have hs : (s != "") = true := by
            cases hb : (s != "")
            · rw [hb, Bool.and_false] at him
              exact absurd him (by simp)
            · rfl
          simp [him, replayContrib, jsonTruthy, hs]
      | false => simp [him, replayContrib, jsonTruthy]

theorem replayContrib_runEntry (cd : List (String × JRec)) (f : FileEntry) :
    replayContrib (runEntry cd f) = runContrib cd f := by
  unfold runEntry runContrib
  cases recLookup cd (pathStr f) with
  | none => exact replayContrib_freshPair f
  | some e =>
      cases hm : is_file_modified f.mtime e.1 with
      | true =>
          simp only [hm, if_pos rfl]
          exact replayContrib_freshPair f
      | false =>
          simp [hm]
          exact replayContrib_replayEntry e

theorem discoverStep4_eq (ts : List FileEntry) :
    discoverStep4 ts =
      (ts.flatMap (fun f => (freshPair f).2),
       ts.map (fun f => (pathStr f, (freshPair f).1))) := by
  induction ts with
  | nil => rfl
  | cons f rest ih => simp [discoverStep4, ih]

theorem discoverStep3_eq (cd : List (String × JRec)) (files : List FileEntry) :
    discoverStep3 cd files =
      ((files.filter (fun f => !needsRescan cd f)).flatMap (runContrib cd),
       (files.filter (fun f => !needsRescan cd f)).map
         (fun f => (pathStr f, runEntry cd f)),
       files.filter (needsRescan cd)) := by
  induction files with
  | nil => rfl
  | cons f rest ih =>
      simp only [discoverStep3, ih]
      unfold needsRescan runEntry runContrib
      cases h : recLookup cd (pathStr f) with
      | none => simp [List.filter_cons, h]
      | some e =>
          cases hm : is_file_modified f.mtime e.1 with
          | true => simp [List.filter_cons, h, hm]
          | false => simp [List.filter_cons, h, hm]

theorem discoverCore_eq (cd : List (String × JRec)) (files : List FileEntry) :
    discoverCore cd files =
      ((files.filter (fun f => !needsRescan cd f)).flatMap (runContrib cd) ++
         (files.filter (needsRescan cd)).flatMap (fun f => (freshPair f).2),
       (files.filter (fun f => !needsRescan cd f)).map
           (fun f => (pathStr f, runEntry cd f)) ++
         (files.filter (needsRescan cd)).map
           (fun f => (pathStr f, (freshPair f).1))) := by
  unfold discoverCore
  rw [discoverStep3_eq]
  simp only []
  rw [discoverStep4_eq]

theorem runContrib_of_needsRescan (cd : List (String × JRec)) (f : FileEntry)
    (h : needsRescan cd f = true) : runContrib cd f = (freshPair f).2 := by
  unfold needsRescan at h
  unfold runContrib
  cases hr : recLookup cd (pathStr f) with
  | none => rfl
  | some e =>
      rw [hr] at h
      have h2 : is_file_modified f.mtime e.1 = true := h
      simp [h2]

theorem runEntry_of_needsRescan (cd : List (String × JRec)) (f : FileEntry)
    (h : needsRescan cd f = true) : runEntry cd f = (freshPair f).1 := by
  unfold needsRescan at h
  unfold runEntry
  cases hr : recLookup cd (pathStr f) with
  | none => rfl
  | some e =>
      rw [hr] at h
      have h2 : is_file_modified f.mtime e.1 = true := h
      simp [h2]

theorem discoverCore_contrib_perm (cd : List (String × JRec))
    (files : List FileEntry) :
    List.Perm (discoverCore cd files).1 (files.flatMap (runContrib cd)) := by
  rw [discoverCore_eq]
  have h2 : (files.filter (needsRescan cd)).flatMap (fun f => (freshPair f).2) =
      (files.filter (needsRescan cd)).flatMap (runContrib cd) := by
    apply List.flatMap_congr
    intro f hf
    exact (runContrib_of_needsRescan cd f (List.of_mem_filter hf)).symm
  have hperm : List.Perm
      (files.filter (fun f => !needsRescan cd f) ++ files.filter (needsRescan cd))
      files :=
    List.perm_append_comm.trans (List.filter_append_perm (needsRescan cd) files)
  simp only [h2]
  rw [← List.flatMap_append]
  exact hperm.flatMap_right _

theorem discoverCore_records_perm (cd : List (String × JRec))
    (files : List FileEntry) :
    List.Perm (discoverCore cd files).2
      (files.map (fun f => (pathStr f, runEntry cd f))) := by
  rw [discoverCore_eq]
  have h2 : (files.filter (needsRescan cd)).map
        (fun f => (pathStr f, (freshPair f).1)) =
      (files.filter (needsRescan cd)).map
        (fun f => (pathStr f, runEntry cd f)) := by
    apply List.map_congr_left
    intro f hf
    rw [runEntry_of_needsRescan cd f (List.of_mem_filter hf)]
  have hperm : List.Perm
      (files.filter (fun f => !needsRescan cd f) ++ files.filter (needsRescan cd))
      files :=
    List.perm_append_comm.trans (List.filter_append_perm (needsRescan cd) files)
  simp only [h2]
  rw [← List.map_append]
  exact hperm.map _

theorem recLookup_eq_some_of_mem {l : List (String × JRec)} {k : String}
    {v : JRec} (hn : (l.map Prod.fst).Nodup) (hm : (k, v) ∈ l) :
    recLookup l k = some v := by
  induction l with
  | nil => cases hm
  | cons p rest ih =>
      rw [List.map_cons, List.nodup_cons] at hn
      rw [List.mem_cons] at hm
      unfold recLookup
      by_cases hk : p.1 = k
      · rw [if_pos hk]
        rcases hm with hm | hm
        · rw [← hm]
        · exfalso
          apply hn.1
          rw [hk]
          exact List.mem_map.mpr ⟨(k, v), hm, rfl⟩
      · rw [if_neg hk]
        rcases hm with hm | hm
        · exact absurd (congrArg Prod.fst hm).symm hk
        · exact ih hn.2 hm

theorem objLookup_objSet_self (fields : List (String × Json)) (k : String)
    (v : Json) : objLookup (objSet fields k v) k = some v := by
  induction fields with
  | nil => simp [objSet, objLookup]
  | cons p rest ih =>
      unfold objSet
      by_cases hk : p.1 = k
      · rw [if_pos hk]
        unfold objLookup
        rw [if_pos hk]
      · rw [if_neg hk]
        unfold objLookup
        rw [if_neg hk]
        exact ih

theorem loadEntries_serialize (nc : List (String × JRec)) :
    loadEntries (nc.map (fun pr => (pr.1, serializeRecord pr.2))) = .ok nc := by
  induction nc with
  | nil => rfl
  | cons pr rest ih =>
      rw [List.map_cons]
      show (loadEntries (rest.map (fun q => (q.1, serializeRecord q.2)))).map
          (fun tail => pr :: tail) = Except.ok (pr :: rest)
      rw [ih]
      rfl

theorem load_merged (fields : List (String × Json)) (k : String)
    (nc : List (String × JRec)) :
    ScanCache.load true (.content (.obj (objSet fields k (serializeRecords nc))))
      k = .ok (some nc) := by
  unfold ScanCache.load serializeRecords
  simp [objLookup_objSet_self, loadEntries_serialize]

theorem needsRescan_false_of_lookup {data2 cd : List (String × JRec)}
    {f : FileEntry} (h : recLookup data2 (pathStr f) = some (runEntry cd f)) :
    needsRescan data2 f = false := by
  unfold needsRescan
  rw [h]
  exact runEntry_not_modified cd f

theorem runContrib_of_lookup {data2 cd : List (String × JRec)} {f : FileEntry}
    (h : recLookup data2 (pathStr f) = some (runEntry cd f)) :
    runContrib data2 f = runContrib cd f := by
  unfold runContrib
  rw [h]
  show (if is_file_modified f.mtime (runEntry cd f).1 = true then (freshPair f).2
      else replayContrib (runEntry cd f)) =
    (match recLookup cd (pathStr f) with
     | some e =>
         if is_file_modified f.mtime e.1 = true then (freshPair f).2
         else replayContrib e
     | none => (freshPair f).2)
  rw [runEntry_not_modified cd f]
  simp only [Bool.false_eq_true, if_false]
  exact replayContrib_runEntry cd f

theorem discoverCore_all_replay (cd data2 : List (String × JRec))
    (files : List FileEntry)
    (h : ∀ f ∈ files, recLookup data2 (pathStr f) = some (runEntry cd f)) :
    (discoverCore data2 files).1 = files.flatMap (runContrib cd) := by
  have hfil : files.filter (fun f => !needsRescan data2 f) = files := by
    rw [List.filter_eq_self]
    intro f hf
    rw [needsRescan_false_of_lookup (h f hf)]
    rfl
  have hfil2 : files.filter (needsRescan data2) = [] := by
    rw [List.filter_eq_nil_iff]
    intro f hf
    rw [needsRescan_false_of_lookup (h f hf)]
    simp
  rw [discoverCore_eq]
  simp only [hfil, hfil2, List.flatMap_nil, List.append_nil]
  exact List.flatMap_congr (fun f hf => runContrib_of_lookup (h f hf))

theorem save_ok_writeOk {enabled : Bool} {store : StoreFile} {k : String}
    {nc : List (String × JRec)} {w1 : WriteOutcome} {s1 : StoreFile}
    (h : ScanCache.save enabled store k nc w1 = .ok s1) (w2 : WriteOutcome) :
    ∃ s2, ScanCache.save enabled store k nc w2 = .ok s2 := by
  cases enabled with
  | false => exact ⟨store, rfl⟩
  | true =>
      cases store with
      | absent => cases w2 <;> exact ⟨_, rfl⟩
      | unreadable => exact ⟨_, rfl⟩
      | undecodable => exact absurd h (by simp [ScanCache.save])
      | content j =>
          cases j with
          | obj fields => cases w2 <;> exact ⟨_, rfl⟩
          | arr elems => exact absurd h (by simp [ScanCache.save])
          | str s => exact absurd h (by simp [ScanCache.save])
          | num n => exact absurd h (by simp [ScanCache.save])
          | bool b => exact absurd h (by simp [ScanCache.save])
          | null => exact absurd h (by simp [ScanCache.save])

theorem save_ok_inv {enabled : Bool} {store : StoreFile} {k : String}
    {nc : List (String × JRec)} {w : WriteOutcome} {s : StoreFile}
    (h : ScanCache.save enabled store k nc w = .ok s) :
    s = store ∨
      (enabled = true ∧ s = .undecodable) ∨
      (enabled = true ∧
        ((store = .absent ∧
            s = .content (.obj (objSet [] k (serializeRecords nc)))) ∨
          (∃ fields, store = .content (.obj fields) ∧
            s = .content (.obj (objSet fields k (serializeRecords nc)))))) := by
  cases enabled with
  | false =>
      left
      have h2 : Except.ok (ε := PyErr) store = .ok s := h
      exact (Except.ok.inj h2).symm
  | true =>
      cases store with
      | absent =>
          cases w with
          | success =>
              right; right
              refine ⟨rfl, Or.inl ⟨rfl, ?_⟩⟩
              have h2 : Except.ok (ε := PyErr)
                  (StoreFile.content (.obj [(k, serializeRecords nc)])) = .ok s := h
              exact (Except.ok.inj h2).symm
          | failOpen =>
              left
              have h2 : Except.ok (ε := PyErr) StoreFile.absent = .ok s := h
              exact (Except.ok.inj h2).symm
          | failMidWrite =>
              right; left
              refine ⟨rfl, ?_⟩
              have h2 : Except.ok (ε := PyErr) StoreFile.undecodable = .ok s := h
              exact (Except.ok.inj h2).symm
      | unreadable =>
          left
          have h2 : Except.ok (ε := PyErr) StoreFile.unreadable = .ok s := h
          exact (Except.ok.inj h2).symm
      | undecodable => exact absurd h (by simp [ScanCache.save])
      | content j =>
          cases j with
          | obj fields =>
              cases w with
              | success =>
                  right; right
                  refine ⟨rfl, Or.inr ⟨fields, rfl, ?_⟩⟩
                  have h2 : Except.ok (ε := PyErr)
                      (StoreFile.content (.obj (objSet fields k (serializeRecords nc)))) =
                      .ok s := h
                  exact (Except.ok.inj h2).symm
              | failOpen =>
                  left
                  have h2 : Except.ok (ε := PyErr)
                      (StoreFile.content (.obj fields)) = .ok s := h
                  exact (Except.ok.inj h2).symm
              | failMidWrite =>
                  right; left
                  refine ⟨rfl, ?_⟩
                  have h2 : Except.ok (ε := PyErr) StoreFile.undecodable = .ok s := h
                  exact (Except.ok.inj h2).symm
          | arr elems => exact absurd h (by simp [ScanCache.save])
          | str s2 => exact absurd h (by simp [ScanCache.save])
          | num n => exact absurd h (by simp [ScanCache.save])
          | bool b => exact absurd h (by simp [ScanCache.save])
          | null => exact absurd h (by simp [ScanCache.save])

theorem discover_eq (m : Matcher) (cfg : ScanConfig) (fs : List FileEntry)
    (store : StoreFile) (w : WriteOutcome) :
    discover m cfg fs store w =
      (match ScanCache.load cfg.cacheEnabled store (cacheKey cfg) with
       | .error e => .error e
       | .ok cacheOpt =>
           match ScanCache.save cfg.cacheEnabled store (cacheKey cfg)
               (discoverCore (cacheOpt.getD [])
                 (fs.filter (fun f => _should_scan_file m cfg.includePatterns
                   cfg.excludePatterns f.relParts))).2 w with
           | .error e => .error e
           | .ok st =>
               .ok (sortedModules (discoverCore (cacheOpt.getD [])
                 (fs.filter (fun f => _should_scan_file m cfg.includePatterns
                   cfg.excludePatterns f.relParts))).1, st)) := by
  unfold discover
  rfl

theorem discover_merged_out (m : Matcher) (cfg : ScanConfig)
    (fs : List FileEntry) (cd : List (String × JRec))
    (F : List (String × Json)) (w2 : WriteOutcome)
    (hen : cfg.cacheEnabled = true)
    (hnd : ((fs.filter (fun f => _should_scan_file m cfg.includePatterns
      cfg.excludePatterns f.relParts)).map pathStr).Nodup) :
    ∃ st2, discover m cfg fs
        (.content (.obj (objSet F (cacheKey cfg)
          (serializeRecords (discoverCore cd
            (fs.filter (fun f => _should_scan_file m cfg.includePatterns
              cfg.excludePatterns f.relParts))).2)))) w2 =
      .ok (sortedModules (discoverCore cd
        (fs.filter (fun f => _should_scan_file m cfg.includePatterns
          cfg.excludePatterns f.relParts))).1, st2) := by
  set files := fs.filter (fun f => _should_scan_file m cfg.includePatterns
    cfg.excludePatterns f.relParts) with hfilesdef
  set nc1 := (discoverCore cd files).2 with hnc1def
  have hperm := discoverCore_records_perm cd files
  have hkeys : List.Perm (nc1.map Prod.fst) (files.map pathStr) := by
    have h2 := hperm.map Prod.fst
    simpa [List.map_map, Function.comp] using h2
  have hndnc : (nc1.map Prod.fst).Nodup := hkeys.symm.nodup hnd
  have hlk : ∀ f ∈ files, recLookup nc1 (pathStr f) = some (runEntry cd f) := by
    intro f hf
    apply recLookup_eq_some_of_mem hndnc
    have hmem : (pathStr f, runEntry cd f) ∈
        files.map (fun g => (pathStr g, runEntry cd g)) :=
      List.mem_map.mpr ⟨f, hf, rfl⟩
    exact hperm.symm.subset hmem
  have hall := discoverCore_all_replay cd nc1 files hlk
  have hout2 : sortedModules (discoverCore nc1 files).1 =
      sortedModules (discoverCore cd files).1 := by
    rw [hall]
    exact (sortedModules_eq_of_perm (discoverCore_contrib_perm cd files)).symm
  rw [discover_eq, hen]
  simp only [load_merged F (cacheKey cfg) nc1, Option.getD_some]
  have hsave2 : ∃ st2, ScanCache.save true
      (.content (.obj (objSet F (cacheKey cfg) (serializeRecords nc1))))
      (cacheKey cfg) (discoverCore nc1 files).2 w2 = .ok st2 := by
    cases w2 <;> exact ⟨_, rfl⟩
  obtain ⟨st2, hs2⟩ := hsave2
  simp only [hs2, hout2]
  exact ⟨st2, rfl⟩

/-- C4 amended: for every scan configuration and directory tree (with
distinct file paths, as in any real tree), two consecutive `discover()`
calls with no filesystem changes in between agree whenever both return a
list: if the first call returns normally and the second call — reading
whatever store state the first call left behind — also returns normally,
the two sorted, duplicate-free module-identifier lists are identical.
(The claim as stated is refuted by the counterexample: a cache write of
the first call that fails after truncating the store file leaves a
corrupt store, and the second call then raises out of `save` instead of
returning a list.) -/
theorem c4_discover_idempotent (m : Matcher) (cfg : ScanConfig)
    (fs : List FileEntry) (store0 store1 store2 : StoreFile)
    (w1 w2 : WriteOutcome) (out1 out2 : List String)
    (hnodup : (fs.map pathStr).Nodup)
    (h1 : discover m cfg fs store0 w1 = .ok (out1, store1))
    (h2 : discover m cfg fs store1 w2 = .ok (out2, store2)) :
    out2 = out1 := by
  set files := fs.filter (fun f => _should_scan_file m cfg.includePatterns
    cfg.excludePatterns f.relParts) with hfilesdef
  have hnd : (files.map pathStr).Nodup := by
    apply List.Nodup.sublist _ hnodup
    exact (List.filter_sublist fs).map pathStr
  rw [discover_eq] at h1
  cases hload : ScanCache.load cfg.cacheEnabled store0 (cacheKey cfg) with
  | error e =>
      rw [hload] at h1
      exact absurd h1 (by simp)
  | ok cacheOpt =>
      rw [hload] at h1
      simp only [← hfilesdef] at h1
      set cd := cacheOpt.getD [] with hcddef
      set nc1 := (discoverCore cd files).2 with hnc1def
      cases hsave : ScanCache.save cfg.cacheEnabled store0 (cacheKey cfg) nc1 w1 with
      | error e =>
          rw [hsave] at h1
          exact absurd h1 (by simp)
      | ok s =>
          rw [hsave] at h1
          simp only [Except.ok.injEq, Prod.mk.injEq] at h1
          obtain ⟨hout, hst⟩ := h1
          rcases save_ok_inv hsave with hsame | ⟨hen, hundec⟩ | ⟨hen, hform⟩
          · -- the first call left the store unchanged: the second call
            -- repeats the computation of the first call
            rw [← hst, hsame] at h2
            rw [discover_eq] at h2
            rw [hload] at h2
            simp only [← hfilesdef, ← hcddef, ← hnc1def] at h2
            cases hsave2 : ScanCache.save cfg.cacheEnabled store0 (cacheKey cfg)
                nc1 w2 with
            | error e =>
                rw [hsave2] at h2
                exact absurd h2 (by simp)
            | ok s2 =>
                rw [hsave2] at h2
                simp only [Except.ok.injEq, Prod.mk.injEq] at h2
                rw [← h2.1]
                exact hout
          · -- a mid-write failure of the first call left a corrupt store:
            -- the second call raises at save, contradicting h2
            rw [← hst, hundec] at h2
            have herr : discover m cfg fs .undecodable w2 =
                .error .jsonDecodeError := by
              rw [discover_eq, hen]
              rfl
            rw [herr] at h2
            exact absurd h2 (by simp)
          · -- the first call wrote the merged store: the second call
            -- replays every record and reproduces the same output
            have hmerged : ∃ F, store1 = .content (.obj (objSet F (cacheKey cfg)
                (serializeRecords nc1))) := by
              rcases hform with ⟨_, hs⟩ | ⟨fields, _, hs⟩
              · exact ⟨[], by rw [← hst, hs]⟩
              · exact ⟨fields, by rw [← hst, hs]⟩
            obtain ⟨F, hF⟩ := hmerged
            rw [hF] at h2
            obtain ⟨st2, hst2⟩ := discover_merged_out m cfg fs cd F w2 hen hnd
            rw [← hfilesdef] at hst2
            rw [← hnc1def] at hst2
            rw [hst2] at h2
            simp only [Except.ok.injEq, Prod.mk.injEq] at h2
            rw [← h2.1]
            exact hout

/-- Modelled from the wording of claim C1: model-base detection — a
declarative-base decorator, a base named `Base`/`Model`/`DeclarativeBase`
or ending in `Base` (directly or through an attribute-access base with
such a conventional name), or a `declarative_base()` call base — without
the SQLModel arm the source folds into `_is_sqlalchemy_model`. -/
def specModelBaseDetection (c : ClassInfo) : Bool :=
  c.decoratorList.any isDeclarativeDecorator || c.bases.any isModelBase

/-- Modelled from the wording of claim C1: table evidence — a
`__tablename__`/`__table__` assignment, a `Column`/`mapped_column` call,
or a `Mapped[...]` annotation — without the SQLModel arm the source folds
into `_has_table_definition`. -/
def specTableEvidence (c : ClassInfo) : Bool :=
  c.body.any isTableItem

/-- The concrete-model condition exactly as claim C1 states it: a
`__tablename__` attribute, OR the alternate-ORM (SQLModel) table check,
OR (model-base detection AND table evidence). -/
def specConcreteModel (c : ClassInfo) : Bool :=
  _has_tablename c || _is_sqlmodel c ||
    (specModelBaseDetection c && specTableEvidence c)

/-- C1: for every parsed class definition that the abstract check does
not divert, the classifier marks it a concrete model exactly when it
defines `__tablename__`, or is a SQLModel table class, or passes both
model-base detection and the table-evidence check; and any class so
marked makes the whole file `is_model = true`.  In particular a class
with a `__tablename__` attribute or the SQLModel table marker is a model
regardless of its base-class name. -/
theorem c1_concrete_model_classification (c : ClassInfo)
    (habs : _is_abstract_class c = false) :
    classContributes c = specConcreteModel c ∧
    (∀ body p, c ∈ stmtsClasses body → classContributes c = true →
      (scan_file_worker p (.ok body)).2.1 = true) := by
  constructor
  · unfold classContributes specConcreteModel _is_sqlalchemy_model
      _has_table_definition specModelBaseDetection specTableEvidence
    rw [habs]
    have hb : (!c.bases.isEmpty && c.bases.any isModelBase) =
        c.bases.any isModelBase := by
      cases c.bases <;> simp
    cases hsq : _is_sqlmodel c <;>
      cases htn : _has_tablename c <;>
        simp [hsq, htn, hb]
  · intro body p hmem hc
    unfold scan_file_worker
    simp only []
    rw [List.any_eq_true.mpr ⟨c, hmem, hc⟩]
    rfl

/-- A concrete model class: `class User(Base): __tablename__ = "users"`. -/
def userClass : ClassInfo :=
  ⟨"User", [.name "Base"], [], [],
    [.assign [.name "__tablename__"] (.constant (.str "users"))]⟩

/-- The statement list of a file containing only `userClass`. -/
def userBody : List PyStmt :=
  [.classDef "User" [.name "Base"] [] []
    [.assign [.name "__tablename__"] (.constant (.str "users"))]]

theorem c1_witness :
    classContributes userClass = specConcreteModel userClass ∧
    (scan_file_worker "user.py" (.ok userBody)).2.1 = true := by
  refine ⟨(c1_concrete_model_classification userClass rfl).1, ?_⟩
  apply (c1_concrete_model_classification userClass rfl).2 userBody "user.py"
  · rw [show stmtsClasses userBody = [userClass] from rfl]
    exact List.mem_singleton.mpr rfl
  · rfl

/-- C2: every class carrying an assignment of the literal `True` to
`__abstract__` is recorded in the abstract-class list of
`scan_file_worker` and never contributes to the file being a model, even
when it also defines `__tablename__` or other table evidence. -/
theorem c2_abstract_never_contributes (body : List PyStmt) (c : ClassInfo)
    (p : String) (hmem : c ∈ stmtsClasses body)
    (habs : _is_abstract_class c = true) :
    c.name ∈ (scan_file_worker p (.ok body)).2.2 ∧
      classContributes c = false := by
  constructor
  · unfold scan_file_worker
    simp only []
    exact List.mem_map.mpr ⟨c, List.mem_filter.mpr ⟨hmem, habs⟩, rfl⟩
  · unfold classContributes
    rw [habs]
    rfl

/-- An abstract class that also defines `__tablename__`. -/
def abstractClass : ClassInfo :=
  ⟨"AbstractBase", [.name "Base"], [], [],
    [.assign [.name "__abstract__"] (.constant .pyTrue),
     .assign [.name "__tablename__"] (.constant (.str "t"))]⟩

/-- The statement list of a file containing only `abstractClass`. -/
def abstractBody : List PyStmt :=
  [.classDef "AbstractBase" [.name "Base"] [] []
    [.assign [.name "__abstract__"] (.constant .pyTrue),
     .assign [.name "__tablename__"] (.constant (.str "t"))]]

theorem c2_witness :
    "AbstractBase" ∈ (scan_file_worker "models.py" (.ok abstractBody)).2.2 ∧
      classContributes abstractClass = false := by
  apply c2_abstract_never_contributes abstractBody abstractClass "models.py"
  · rw [show stmtsClasses abstractBody = [abstractClass] from rfl]
    exact List.mem_singleton.mpr rfl
  · rfl

/-- C3: `scan_file_worker` never raises: any caught read, decode or
parse failure yields the result `(file_path, False, [])`, and a parsed
file always yields a normal `(file_path, is_model, abstracts)` result. -/
theorem c3_worker_never_raises (p : String) :
    (∀ e, scan_file_worker p (.error e) = (p, false, [])) ∧
    (∀ src, ∃ isModel abstracts,
      scan_file_worker p (.ok src) = (p, isModel, abstracts)) := by
  constructor
  · intro e
    rfl
  · intro src
    exact ⟨_, _, rfl⟩

/-- C5: a path is eligible iff it matches at least one include pattern
and no effective exclude pattern, where the effective excludes are the
user excludes plus the fixed default baseline plus the patterns derived
from a `.gitignore` at the scan root. -/
theorem c5_eligibility (m : Matcher) (includes userExcludes : List String)
    (gitignore : Option (List String)) (parts : List String) :
    (_should_scan_file m includes
        (scannerExcludePatterns userExcludes gitignore) parts = true ↔
      ((∃ pat ∈ includes, variantMatch m parts pat = true) ∧
        ∀ pat ∈ scannerExcludePatterns userExcludes gitignore,
          variantMatch m parts pat = false)) ∧
    (∀ q, q ∈ scannerExcludePatterns userExcludes gitignore ↔
      (q ∈ userExcludes ∨ q ∈ DEFAULT_EXCLUDE_PATTERNS ∨
        q ∈ parse_gitignore gitignore)) := by
  constructor
  · unfold _should_scan_file _matches_pattern
    rw [Bool.and_eq_true, List.any_eq_true, Bool.not_eq_true',
      List.any_eq_false]
    constructor
    · intro h
      refine ⟨h.1, fun pat hpat => ?_⟩
      have h2 := h.2 pat hpat
      cases hv : variantMatch m parts pat
      · rfl
      · exact absurd hv h2
    · intro h
      refine ⟨h.1, fun pat hpat => ?_⟩
      rw [h.2 pat hpat]
      exact fun hc => nomatch hc
  · intro q
    unfold scannerExcludePatterns
    rw [List.mem_append, List.mem_append, or_assoc]

theorem load_absent (en : Bool) (k : String) :
    ScanCache.load en .absent k = .ok none := by
  cases en <;> rfl

/-- C10: a file whose path relative to the scan base is exactly
`__init__.py` gets no module identifier from `_get_module_path`, its
fresh record stores a null module path and contributes nothing, and a
`discover` run over a tree holding such a file returns the empty list
even when the classifier marks the file a model. -/
theorem c10_base_init_no_module :
    (_get_module_path ["__init__.py"] = none) ∧
    (∀ mt src, freshPair ⟨["__init__.py"], mt, src⟩ =
      ((.num mt, .bool false, .null), [])) ∧
    (∀ m cfg mt src w, ∃ st,
      discover m cfg [⟨["__init__.py"], mt, src⟩] .absent w = .ok ([], st)) := by
  refine ⟨rfl, fun mt src => rfl, ?_⟩
  intro m cfg mt src w
  rw [discover_eq, load_absent]
  simp only [Option.getD_none]
  set files := [(⟨["__init__.py"], mt, src⟩ : FileEntry)].filter (fun f =>
    _should_scan_file m cfg.includePatterns cfg.excludePatterns f.relParts)
    with hfilesdef
  have hcontrib : sortedModules (discoverCore [] files).1 = [] := by
    rw [hfilesdef]
    cases hf : _should_scan_file m cfg.includePatterns cfg.excludePatterns
        ((⟨["__init__.py"], mt, src⟩ : FileEntry).relParts) with
    | false =>
        rw [List.filter_cons, hf]
        rfl
    | true =>
        rw [List.filter_cons, hf]
        rfl
  have hsave : ∃ st1, ScanCache.save cfg.cacheEnabled .absent (cacheKey cfg)
      (discoverCore [] files).2 w = .ok st1 := by
    cases cfg.cacheEnabled <;> cases w <;> exact ⟨_, rfl⟩
  obtain ⟨st1, hs1⟩ := hsave
  rw [hs1, hcontrib]
  exact ⟨st1, rfl⟩

/-- A matcher standing for `PurePath.match`, fixed on the single include
pattern used by the concrete scenarios. -/
def pyMatcher : Matcher := fun _ pat => pat == "**/*.py"

/-- A concrete scan configuration with the default include pattern, no
excludes, and caching on. -/
def simpleCfg : ScanConfig := ⟨"proj", ["**/*.py"], [], true⟩

/-- A non-model file `util.py` (its parsed body holds no classes). -/
def utilFile : FileEntry := ⟨["util.py"], 2, .ok []⟩

/-- A model file `user.py` holding `userClass`. -/
def userFile : FileEntry := ⟨["user.py"], 1, .ok userBody⟩

/-- C6 counterexample: a full `discover` run over a tree with a single
non-model file persists the record `(mtime 2, is_model false,
module_path "util")` — the module identifier is present (non-null) while
`is_model` is false, so "module identifier present iff is_model" fails
on freshly scanned non-model files. -/
theorem c6_counterexample :
    discover pyMatcher simpleCfg [utilFile] .absent .success =
      .ok ([], .content (.obj [("proj:**/*.py:", .obj [("util.py", .obj
        [("mtime", .num 2), ("is_model", .bool false),
         ("module_path", .str "util")])])])) := rfl

theorem recLookup_mem {l : List (String × JRec)} {k : String} {v : JRec}
    (h : recLookup l k = some v) : (k, v) ∈ l := by
  induction l with
  | nil => exact absurd h (by simp [recLookup])
  | cons p rest ih =>
      unfold recLookup at h
      by_cases hk : p.1 = k
      · rw [if_pos hk] at h
        have hv : p.2 = v := Option.some.inj h
        rw [List.mem_cons]
        left
        rw [← hk, ← hv]
      · rw [if_neg hk] at h
        exact List.mem_cons.mpr (Or.inr (ih h))

theorem freshPair_good (f : FileEntry) :
    jsonTruthy (freshPair f).1.2.1 = true →
      jsonTruthy (freshPair f).1.2.2 = true := by
  unfold freshPair
  cases hmp : _get_module_path f.relParts with
  | none =>
      intro ht
      simp [jsonTruthy] at ht
  | some s =>
      cases hc : (scan_file_worker (pathStr f) f.src).2.1 && (s != "") with
      | true =>
          simp only [hc, if_pos rfl]
          intro _
          show (s != "") = true
          cases hs : (s != "")
          · rw [hs, Bool.and_false] at hc
            exact absurd hc (by simp)
          · rfl
      | false =>
          simp only [hc, Bool.false_eq_true, if_false]
          intro ht
          simp [jsonTruthy] at ht

theorem replayEntry_good (e : JRec)
    (he : jsonTruthy e.2.1 = true → jsonTruthy e.2.2 = true) :
    jsonTruthy (replayEntry e).2.1 = true →
      jsonTruthy (replayEntry e).2.2 = true := by
  unfold replayEntry
  cases hte : jsonTruthy e.2.1 with
  | true =>
      simp only [hte, if_pos rfl]
      intro _
      exact he hte
  | false =>
      simp only [hte, Bool.false_eq_true, if_false]
      intro ht
      simp [jsonTruthy] at ht

theorem runEntry_good (cd : List (String × JRec)) (f : FileEntry)
    (hgood : ∀ pe ∈ cd, jsonTruthy pe.2.2.1 = true →
      jsonTruthy pe.2.2.2 = true) :
    jsonTruthy (runEntry cd f).2.1 = true →
      jsonTruthy (runEntry cd f).2.2 = true := by
  unfold runEntry
  cases hr : recLookup cd (pathStr f) with
  | none => exact freshPair_good f
  | some e =>
      cases hm : is_file_modified f.mtime e.1 with
      | true =>
          simp only [hm, if_pos rfl]
          exact freshPair_good f
      | false =>
          simp only [hm, Bool.false_eq_true, if_false]
          exact replayEntry_good e (hgood (pathStr f, e) (recLookup_mem hr))

/-- C6 amended: the forward direction holds — whenever the loaded cache
satisfies it, every record created or replayed by a scan that has a
truthy `is_model` also has a truthy (non-null, nonempty) module
identifier; the reverse direction is false (see the counterexample):
freshly scanned non-model files persist their computed identifier. -/
theorem c6_model_records_have_module (cd : List (String × JRec))
    (files : List FileEntry)
    (hgood : ∀ pe ∈ cd, jsonTruthy pe.2.2.1 = true →
      jsonTruthy pe.2.2.2 = true) :
    ∀ qe ∈ (discoverCore cd files).2,
      jsonTruthy qe.2.2.1 = true → jsonTruthy qe.2.2.2 = true := by
  intro qe hqe
  have hmem := (discoverCore_records_perm cd files).subset hqe
  obtain ⟨f, _, hfq⟩ := List.mem_map.mp hmem
  rw [← hfq]
  show jsonTruthy (runEntry cd f).2.1 = true →
    jsonTruthy (runEntry cd f).2.2 = true
  exact runEntry_good cd f hgood

theorem c6_witness :
    jsonTruthy ((Json.num 1, Json.bool true, Json.str "user") : JRec).2.2 =
      true := by
  apply c6_model_records_have_module [] [userFile] (by simp)
    ("user.py", (Json.num 1, Json.bool true, Json.str "user"))
  · rw [show (discoverCore [] [userFile]).2 =
      [("user.py", ((Json.num 1 : Json), (Json.bool true : Json),
        (Json.str "user" : Json)))] from rfl]
    exact List.mem_singleton.mpr rfl
  · rfl

/-- C7: evaluation of `ScanCache.load` at the failing inputs.  The claim
(and the docstring of `load`) says an invalid or unreadable store is a
cache miss; but the `try` block catches only `json.JSONDecodeError`,
`KeyError` and `ValueError`, so a store holding the valid JSON document
`5` (top level not an object) raises `TypeError` at the `in` test, and a
present-but-unreadable store raises `OSError` at `open`.  The caught
shapes do return a miss, as the third and fourth conjuncts witness. -/
theorem c7_load_failing_inputs :
    ScanCache.load true (.content (.num 5)) "k" = .error .typeError ∧
    ScanCache.load true .unreadable "k" = .error .oSError ∧
    ScanCache.load true .undecodable "k" = .ok none ∧
    ScanCache.load true .absent "k" = .ok none :=
  ⟨rfl, rfl, rfl, rfl⟩

/-- C8 counterexample: `ScanCache.save` with an existing store that is
readable but not valid JSON raises `json.JSONDecodeError` — the `try`
block catches only `OSError` — so the claim that save swallows every
failure including a corrupt existing store is false. -/
theorem c8_counterexample :
    ScanCache.save true .undecodable "k" [] .success = .error .jsonDecodeError :=
  rfl

/-- C8 amended: `ScanCache.save` swallows `OSError` failures — an
unreadable existing store, a write whose `open` fails (store unchanged),
and a write that fails mid-dump (store left truncated, hence
undecodable) — and a `discover` call whose cache write fails either way
still returns its result list; but a corrupt (readable, non-JSON)
existing store makes save raise (see the counterexample). -/
theorem c8_save_swallows_oserror :
    (∀ k fd w, ScanCache.save true .unreadable k fd w = .ok .unreadable) ∧
    (∀ k fd, ScanCache.save true .absent k fd .failOpen = .ok .absent) ∧
    (∀ k fd, ScanCache.save true .absent k fd .failMidWrite =
      .ok .undecodable) ∧
    (∀ fields k fd, ScanCache.save true (.content (.obj fields)) k fd
      .failOpen = .ok (.content (.obj fields))) ∧
    (∀ fields k fd, ScanCache.save true (.content (.obj fields)) k fd
      .failMidWrite = .ok .undecodable) ∧
    (∀ m cfg fs w, ∃ out st,
      discover m cfg fs .absent w = .ok (out, st)) := by
  refine ⟨fun k fd w => rfl, fun k fd => rfl, fun k fd => rfl,
    fun fields k fd => rfl, fun fields k fd => rfl, ?_⟩
  intro m cfg fs w
  rw [discover_eq, load_absent]
  simp only [Option.getD_none]
  have hsave : ∃ st1, ScanCache.save cfg.cacheEnabled .absent (cacheKey cfg)
      (discoverCore []
        (fs.filter (fun f => _should_scan_file m cfg.includePatterns
          cfg.excludePatterns f.relParts))).2 w = .ok st1 := by
    cases cfg.cacheEnabled <;> cases w <;> exact ⟨_, rfl⟩
  obtain ⟨st1, hs1⟩ := hsave
  rw [hs1]
  exact ⟨_, st1, rfl⟩

theorem objLookup_objSet_ne (fields : List (String × Json)) (k other : String)
    (v : Json) (hne : other ≠ k) :
    objLookup (objSet fields k v) other = objLookup fields other := by
  induction fields with
  | nil =>
      unfold objSet objLookup
      rw [if_neg (fun hc => hne hc.symm)]
      rfl
  | cons p rest ih =>
      unfold objSet
      by_cases hk : p.1 = k
      · rw [if_pos hk]
        unfold objLookup
        have hpo : ¬p.1 = other := by
          rw [hk]
          exact fun hc => hne hc.symm
        rw [if_neg hpo, if_neg hpo]
      · rw [if_neg hk]
        unfold objLookup
        by_cases hpo : p.1 = other
        · rw [if_pos hpo, if_pos hpo]
        · rw [if_neg hpo, if_neg hpo]
          exact ih

/-- C9: a successful `ScanCache.save` under the fingerprint `k` rewrites
only the entry at `k`: the resulting store maps every other top-level
fingerprint key to exactly what it mapped to before. -/
theorem c9_save_preserves_other_keys (fields : List (String × Json))
    (k other : String) (fd : List (String × JRec)) (hne : other ≠ k) :
    ScanCache.save true (.content (.obj fields)) k fd .success =
      .ok (.content (.obj (objSet fields k (serializeRecords fd)))) ∧
    objLookup (objSet fields k (serializeRecords fd)) other =
      objLookup fields other :=
  ⟨rfl, objLookup_objSet_ne fields k other (serializeRecords fd) hne⟩

theorem c9_witness :
    ScanCache.save true (.content (.obj [("a", .null)])) "b" [] .success =
      .ok (.content (.obj (objSet [("a", .null)] "b"
        (serializeRecords [])))) ∧
    objLookup (objSet [("a", .null)] "b" (serializeRecords [])) "a" =
      objLookup [("a", .null)] "a" :=
  c9_save_preserves_other_keys [("a", .null)] "b" "a" [] (by decide)

/-- C4 counterexample: with no filesystem change between the calls, the
first `discover` run returns its list while its cache write fails
mid-dump, leaving a truncated (undecodable) store; the second run then
raises `json.JSONDecodeError` out of `save` — it returns no list at all,
so the two consecutive calls do not return identical lists. -/
theorem c4_counterexample :
    discover pyMatcher simpleCfg [utilFile] .absent .failMidWrite =
      .ok ([], .undecodable) ∧
    discover pyMatcher simpleCfg [utilFile] .undecodable .success =
      .error .jsonDecodeError :=
  ⟨rfl, rfl⟩

theorem c4_witness :
    discover pyMatcher simpleCfg [userFile, utilFile] .absent .success =
      .ok (["user"], .content (.obj [("proj:**/*.py:", .obj [
        ("user.py", .obj [("mtime", .num 1), ("is_model", .bool true),
          ("module_path", .str "user")]),
        ("util.py", .obj [("mtime", .num 2), ("is_model", .bool false),
          ("module_path", .str "util")])])])) ∧
    discover pyMatcher simpleCfg [userFile, utilFile]
      (.content (.obj [("proj:**/*.py:", .obj [
        ("user.py", .obj [("mtime", .num 1), ("is_model", .bool true),
          ("module_path", .str "user")]),
        ("util.py", .obj [("mtime", .num 2), ("is_model", .bool false),
          ("module_path", .str "util")])])])) .success =
      .ok (["user"], .content (.obj [("proj:**/*.py:", .obj [
        ("user.py", .obj [("mtime", .num 1), ("is_model", .bool true),
          ("module_path", .str "user")]),
        ("util.py", .obj [("mtime", .num 2), ("is_model", .bool false),
          ("module_path", .null)])])])) ∧
    (["user"] : List String) = ["user"] :=
  ⟨rfl, rfl,
    c4_discover_idempotent pyMatcher simpleCfg [userFile, utilFile] .absent
      (.content (.obj [("proj:**/*.py:", .obj [
        ("user.py", .obj [("mtime", .num 1), ("is_model", .bool true),
          ("module_path", .str "user")]),
        ("util.py", .obj [("mtime", .num 2), ("is_model", .bool false),
          ("module_path", .str "util")])])]))
      (.content (.obj [("proj:**/*.py:", .obj [
        ("user.py", .obj [("mtime", .num 1), ("is_model", .bool true),
          ("module_path", .str "user")]),
        ("util.py", .obj [("mtime", .num 2), ("is_model", .bool false),
          ("module_path", .null)])])]))
      .success .success ["user"] ["user"] (by decide) (by rfl) (by rfl)⟩
